import Mathlib

/-!
Shallow embedding of the autoglow backend (src/index.js): an Express + MySQL
order-taking service.  The three routes are modelled as pure functions over an
explicit database state; the callback-style failure points of the MySQL driver
are modelled by an error-injection environment (one optional error message per
fallible driver call), and the connection-pool discipline is recorded as an
event trace (acquire / begin / rollback / commit / release).
-/

namespace AutoGlow

/-- `req.body.customer` as destructured by the orders route: `{phone, name, address}`.
Each field may be absent (JS `undefined` / SQL `NULL`). -/
structure Customer where
  phone : Option String
  name : Option String
  address : Option String
deriving Repr, DecidableEq

/-- One entry of `req.body.items`: `{name, price}`.  Prices travel as opaque
scalar values (strings in the model); the code never computes with them. -/
structure Item where
  name : Option String
  price : Option String
deriving Repr, DecidableEq

/-- The body of `POST /api/orders`: `{customer, items, total, paymentMethod}`;
any of the four top-level fields may be absent. -/
structure OrderReq where
  customer : Option Customer
  items : Option (List Item)
  total : Option String
  paymentMethod : Option String
deriving Repr, DecidableEq

/-- A row of the `users` table: `users(phone PRIMARY KEY, name, city)`. -/
structure UserRow where
  phone : Option String
  name : Option String
  city : Option String
deriving Repr, DecidableEq

/-- A row of the `orders` table:
`orders(id AUTOINCREMENT, user_phone, total_amount, status, payment_method, shipping_address, created_at)`. -/
structure OrderRow where
  id : Nat
  user_phone : Option String
  total_amount : Option String
  status : Option String
  payment_method : Option String
  shipping_address : Option String
  created_at : Nat
deriving Repr, DecidableEq

/-- A row of the `order_items` table:
`order_items(id AUTOINCREMENT, order_id, product_name, price, quantity)`. -/
structure OrderItemRow where
  id : Nat
  order_id : Nat
  product_name : Option String
  price : Option String
  quantity : Nat
deriving Repr, DecidableEq

/-- A row of the `products` table (read-only for this core). -/
structure ProductRow where
  id : Nat
  name : String
  price : String
deriving Repr, DecidableEq

/-- The relational store, plus the AUTOINCREMENT counters and a logical clock
feeding `created_at`. -/
structure DB where
  users : List UserRow
  orders : List OrderRow
  order_items : List OrderItemRow
  products : List ProductRow
  nextOrderId : Nat
  nextItemId : Nat
  nextTime : Nat
deriving Repr, DecidableEq

/-- An HTTP response body, one constructor per JSON shape the routes emit. -/
inductive Body where
  | message (m : String)
  | error (e : String)
  | orderSuccess (m : String) (orderId : Nat)
  | userOrders (user : UserRow) (orders : List OrderRow)
  | productList (ps : List ProductRow)
deriving Repr, DecidableEq

/-- An HTTP response: status code and JSON body. -/
structure Resp where
  status : Nat
  body : Body
deriving Repr, DecidableEq

/-- Connection / transaction events, in the order the handler performs them. -/
inductive Ev where
  | acquire
  | beginTx
  | rollback
  | commit
  | release
deriving Repr, DecidableEq

/-- Error injection for the six fallible driver calls of the orders route:
`db.getConnection`, `connection.beginTransaction`, the three
`connection.query` writes, and `connection.commit`.  `some e` makes that call
fail with message `e`; `none` makes it succeed. -/
structure Env where
  connErr : Option String
  beginErr : Option String
  userErr : Option String
  orderErr : Option String
  itemsErr : Option String
  commitErr : Option String
deriving Repr, DecidableEq

/-- The all-success environment. -/
def Env.ok : Env := ⟨none, none, none, none, none, none⟩

/-- The first driver error the transaction body runs into among the three
writes and the commit, mirroring the sequential callback nesting. -/
def Env.firstWriteErr (env : Env) : Option String :=
  (env.userErr.orElse fun _ =>
    (env.orderErr.orElse fun _ =>
      (env.itemsErr.orElse fun _ => env.commitErr)))

/-- Result of one execution of the orders route: the HTTP response, the
database as subsequent readers see it, and the connection-event trace. -/
structure PoResult where
  resp : Resp
  db : DB
  trace : List Ev
deriving Repr, DecidableEq

/-- The `userSql` upsert:
`INSERT INTO users (phone, name, city) VALUES (?, ?, ?) ON DUPLICATE KEY
UPDATE name = VALUES(name), city = VALUES(city)` — keyed on the `phone`
primary key. -/
def upsertUser (u : UserRow) (users : List UserRow) : List UserRow :=
  if users.any (fun r => decide (r.phone = u.phone)) then
    users.map (fun r => if r.phone = u.phone then { r with name := u.name, city := u.city } else r)
  else
    users ++ [u]

/-- The `orderItemsData` built by
`items.map(item => [orderId, item.name, item.price, 1])`, with the
AUTOINCREMENT ids the bulk insert assigns. -/
def itemRows (orderId : Nat) (nextId : Nat) : List Item → List OrderItemRow
  | [] => []
  | it :: rest => ⟨nextId, orderId, it.name, it.price, 1⟩ :: itemRows orderId (nextId + 1) rest

/-- The store state a successful transaction commits: the customer upsert,
the order insert (capturing `insertId`), and the bulk items insert, applied in
the order the nested callbacks run them. -/
def commitState (c : Customer) (its : List Item) (total paymentMethod : Option String)
    (db : DB) : DB :=
  let w1 : DB := { db with users := upsertUser ⟨c.phone, c.name, c.address⟩ db.users }
  let orderId := w1.nextOrderId
  let w2 : DB := { w1 with
    orders := w1.orders ++
      [⟨orderId, c.phone, total, some "Processing", paymentMethod, c.address, w1.nextTime⟩],
    nextOrderId := orderId + 1,
    nextTime := w1.nextTime + 1 }
  { w2 with
    order_items := w2.order_items ++ itemRows orderId w2.nextItemId its,
    nextItemId := w2.nextItemId + its.length }

/-- The transactional body of `POST /api/orders`, entered once validation has
passed (`customer` present, `items` present and non-empty).  Writes are staged
inside the transaction; any failure rolls the store back to its entry state,
so readers only ever see the entry state or the committed state.  The trace
records the connection lifecycle of each path. -/
def placeOrderTx (env : Env) (c : Customer) (its : List Item)
    (total paymentMethod : Option String) (db : DB) : PoResult :=
  match env.connErr with
  | some e => ⟨⟨500, .error e⟩, db, []⟩
  | none =>
    match env.beginErr with
    | some e => ⟨⟨500, .error e⟩, db, [.acquire, .release]⟩
    | none =>
      match env.userErr with
      | some e => ⟨⟨500, .error e⟩, db, [.acquire, .beginTx, .rollback, .release]⟩
      | none =>
        match env.orderErr with
        | some e => ⟨⟨500, .error e⟩, db, [.acquire, .beginTx, .rollback, .release]⟩
        | none =>
          match env.itemsErr with
          | some e => ⟨⟨500, .error e⟩, db, [.acquire, .beginTx, .rollback, .release]⟩
          | none =>
            match env.commitErr with
            | some e => ⟨⟨500, .error e⟩, db, [.acquire, .beginTx, .rollback, .release]⟩
            | none =>
              ⟨⟨200, .orderSuccess "Order placed successfully!" db.nextOrderId⟩,
                commitState c its total paymentMethod db,
                [.acquire, .beginTx, .commit, .release]⟩

/-- `app.post('/api/orders')`: destructure the body, reject with
`400 {message: 'Missing order details'}` when `!customer || !items ||
items.length === 0`, otherwise run the transaction. -/
def placeOrder (env : Env) (req : OrderReq) (db : DB) : PoResult :=
  match req.customer, req.items with
  | some c, some its =>
    if its.length = 0 then ⟨⟨400, .message "Missing order details"⟩, db, []⟩
    else placeOrderTx env c its req.total req.paymentMethod db
  | _, _ => ⟨⟨400, .message "Missing order details"⟩, db, []⟩

/-- `ORDER BY created_at DESC` as a relation on order rows. -/
def createdDesc (a b : OrderRow) : Prop := b.created_at ≤ a.created_at

instance : DecidableRel createdDesc := fun a b => Nat.decLe b.created_at a.created_at

instance : IsTotal OrderRow createdDesc := ⟨fun a b => Nat.le_total b.created_at a.created_at⟩

instance : IsTrans OrderRow createdDesc := ⟨fun _ _ _ hab hbc => Nat.le_trans hbc hab⟩

/-- The second query of the user route:
`SELECT * FROM orders WHERE user_phone = ? ORDER BY created_at DESC`. -/
def ordersByCreatedDesc (phone : String) (db : DB) : List OrderRow :=
  List.insertionSort createdDesc (db.orders.filter (fun o => decide (o.user_phone = some phone)))

/-- Error injection for the two reads of `GET /api/user/:phone`. -/
structure ReadEnv where
  userQErr : Option String
  orderQErr : Option String
deriving Repr, DecidableEq

/-- The all-success read environment. -/
def ReadEnv.ok : ReadEnv := ⟨none, none⟩

/-- `app.get('/api/user/:phone')`: look the user up by phone; `404
{message: 'User not found'}` when no row matches; otherwise fetch the orders
and respond `200 {user: userResult[0], orders: orderResult}`. -/
def getUserByPhone (env : ReadEnv) (phone : String) (db : DB) : Resp :=
  match env.userQErr with
  | some e => ⟨500, .error e⟩
  | none =>
    match db.users.filter (fun r => decide (r.phone = some phone)) with
    | [] => ⟨404, .message "User not found"⟩
    | u :: _ =>
      match env.orderQErr with
      | some e => ⟨500, .error e⟩
      | none => ⟨200, .userOrders u (ordersByCreatedDesc phone db)⟩

/-- `ORDER BY id DESC` as a relation on product rows. -/
def idDesc (a b : ProductRow) : Prop := b.id ≤ a.id

instance : DecidableRel idDesc := fun a b => Nat.decLe b.id a.id

instance : IsTotal ProductRow idDesc := ⟨fun a b => Nat.le_total b.id a.id⟩

instance : IsTrans ProductRow idDesc := ⟨fun _ _ _ hab hbc => Nat.le_trans hbc hab⟩

/-- The catalog query: `SELECT * FROM products ORDER BY id DESC`. -/
def productsByIdDesc (db : DB) : List ProductRow :=
  List.insertionSort idDesc db.products

/-- `app.get('/api/products')`: on a query error respond `500 {error}`, else
respond with the full sorted product list. -/
def getProducts (env : Option String) (db : DB) : Resp :=
  match env with
  | some e => ⟨500, .error e⟩
  | none => ⟨200, .productList (productsByIdDesc db)⟩

/-- Phones are unique in the `users` table (`phone PRIMARY KEY`). -/
def uniquePhones (users : List UserRow) : Prop :=
  (users.map UserRow.phone).Nodup

/-- Net effect of one event on the pool of available connections. -/
def poolDelta : Ev → Int
  | .acquire => -1
  | .release => 1
  | _ => 0

/-- An empty store. -/
def dbEmpty : DB := ⟨[], [], [], [], 1, 1, 0⟩

/-- A small populated store: one registered customer with two orders. -/
def dbSample : DB :=
  ⟨[⟨some "555", some "A", some "X"⟩],
   [⟨1, some "555", some "9.99", some "Processing", some "COD", some "X", 0⟩,
    ⟨2, some "555", some "5.00", some "Processing", some "COD", some "X", 1⟩],
   [⟨1, 1, some "Widget", some "9.99", 1⟩], [], 3, 2, 2⟩

/-- The spec's end-to-end example request. -/
def reqEx : OrderReq :=
  ⟨some ⟨some "555", some "A", some "X"⟩, some [⟨some "Widget", some "9.99"⟩],
    some "9.99", some "COD"⟩

example :
    (placeOrder Env.ok reqEx dbEmpty).resp =
    ⟨200, .orderSuccess "Order placed successfully!" 1⟩ := by decide

example :
    (placeOrder Env.ok ⟨some ⟨some "555", some "A", some "X"⟩, some [], some "9.99", some "COD"⟩
      dbEmpty).resp = ⟨400, .message "Missing order details"⟩ := by decide

example : getUserByPhone ReadEnv.ok "555" dbEmpty = ⟨404, .message "User not found"⟩ := by decide

/-! ### Structural lemmas about the orders route -/

lemma commitState_users (c : Customer) (its : List Item) (t pm : Option String) (db : DB) :
    (commitState c its t pm db).users = upsertUser ⟨c.phone, c.name, c.address⟩ db.users := rfl

lemma commitState_orders (c : Customer) (its : List Item) (t pm : Option String) (db : DB) :
    (commitState c its t pm db).orders =
      db.orders ++ [⟨db.nextOrderId, c.phone, t, some "Processing", pm, c.address, db.nextTime⟩] :=
  rfl

lemma commitState_order_items (c : Customer) (its : List Item) (t pm : Option String) (db : DB) :
    (commitState c its t pm db).order_items =
      db.order_items ++ itemRows db.nextOrderId db.nextItemId its := rfl

lemma placeOrder_valid (env : Env) (c : Customer) (its : List Item) (t pm : Option String)
    (db : DB) (h : its ≠ []) :
    placeOrder env ⟨some c, some its, t, pm⟩ db = placeOrderTx env c its t pm db := by
  simp [placeOrder, List.length_eq_zero, h]

lemma placeOrderTx_ok (c : Customer) (its : List Item) (t pm : Option String) (db : DB) :
    placeOrderTx Env.ok c its t pm db =
      ⟨⟨200, .orderSuccess "Order placed successfully!" db.nextOrderId⟩,
        commitState c its t pm db, [.acquire, .beginTx, .commit, .release]⟩ := rfl

lemma placeOrder_ok (c : Customer) (its : List Item) (t pm : Option String) (db : DB)
    (h : its ≠ []) :
    placeOrder Env.ok ⟨some c, some its, t, pm⟩ db =
      ⟨⟨200, .orderSuccess "Order placed successfully!" db.nextOrderId⟩,
        commitState c its t pm db, [.acquire, .beginTx, .commit, .release]⟩ := by
  rw [placeOrder_valid _ _ _ _ _ _ h, placeOrderTx_ok]

lemma placeOrderTx_trace_cases (env : Env) (c : Customer) (its : List Item)
    (t pm : Option String) (db : DB) :
    (placeOrderTx env c its t pm db).trace = [] ∨
    (placeOrderTx env c its t pm db).trace = [.acquire, .release] ∨
    (placeOrderTx env c its t pm db).trace = [.acquire, .beginTx, .rollback, .release] ∨
    (placeOrderTx env c its t pm db).trace = [.acquire, .beginTx, .commit, .release] := by
  rcases env with ⟨ce, be, ue, oe, ie, me⟩
  cases ce <;> cases be <;> cases ue <;> cases oe <;> cases ie <;> cases me <;>
    simp [placeOrderTx]

lemma placeOrder_trace_cases (env : Env) (req : OrderReq) (db : DB) :
    (placeOrder env req db).trace = [] ∨
    (placeOrder env req db).trace = [.acquire, .release] ∨
    (placeOrder env req db).trace = [.acquire, .beginTx, .rollback, .release] ∨
    (placeOrder env req db).trace = [.acquire, .beginTx, .commit, .release] := by
  rcases req with ⟨c, its, t, pm⟩
  cases c with
  | none => left; rfl
  | some c =>
    cases its with
    | none => left; rfl
    | some its =>
      by_cases h : its.length = 0
      · left; simp [placeOrder, h]
      · have : placeOrder env ⟨some c, some its, t, pm⟩ db = placeOrderTx env c its t pm db := by
          simp [placeOrder, h]
        rw [this]
        exact placeOrderTx_trace_cases env c its t pm db

lemma placeOrderTx_db_cases (env : Env) (c : Customer) (its : List Item)
    (t pm : Option String) (db : DB) :
    (placeOrderTx env c its t pm db).db = db ∨
    (placeOrderTx env c its t pm db).db = commitState c its t pm db := by
  rcases env with ⟨ce, be, ue, oe, ie, me⟩
  cases ce <;> cases be <;> cases ue <;> cases oe <;> cases ie <;> cases me <;>
    simp [placeOrderTx]

lemma placeOrder_db_cases (env : Env) (req : OrderReq) (db : DB) :
    (placeOrder env req db).db = db ∨
    ∃ c its, req.customer = some c ∧ req.items = some its ∧
      (placeOrder env req db).db = commitState c its req.total req.paymentMethod db := by
  rcases req with ⟨c, its, t, pm⟩
  cases c with
  | none => left; rfl
  | some c =>
    cases its with
    | none => left; rfl
    | some its =>
      by_cases h : its.length = 0
      · left; simp [placeOrder, h]
      · have heq : placeOrder env ⟨some c, some its, t, pm⟩ db = placeOrderTx env c its t pm db := by
          simp [placeOrder, h]
        rcases placeOrderTx_db_cases env c its t pm db with hd | hd
        · left; rw [heq]; exact hd
        · right; exact ⟨c, its, rfl, rfl, by rw [heq]; exact hd⟩

/-! ### Lemmas about the customer upsert -/

lemma countP_phone_le_one (x : Option String) :
    ∀ (users : List UserRow), (users.map UserRow.phone).Nodup →
      users.countP (fun r => decide (r.phone = x)) ≤ 1
  | [], _ => by simp
  | u :: rest, h => by
    have hnd : (rest.map UserRow.phone).Nodup := (List.nodup_cons.mp h).2
    have hni : u.phone ∉ rest.map UserRow.phone := (List.nodup_cons.mp h).1
    by_cases hx : u.phone = x
    · have hzero : rest.countP (fun r => decide (r.phone = x)) = 0 := by
        rw [List.countP_eq_zero]
        intro r hr
        simp only [decide_eq_true_eq]
        intro hph
        exact hni (hx ▸ hph ▸ List.mem_map_of_mem UserRow.phone hr)
      simp [List.countP_cons, hx, hzero]
    · have := countP_phone_le_one x rest hnd
      simpa [List.countP_cons, hx] using this

lemma upsertUser_countP (u : UserRow) (users : List UserRow) (h : uniquePhones users) :
    (upsertUser u users).countP (fun r => decide (r.phone = u.phone)) = 1 := by
  unfold upsertUser
  by_cases hany : users.any (fun r => decide (r.phone = u.phone))
  · rw [if_pos hany, List.countP_map]
    have hcomp :
        ((fun r => decide (r.phone = u.phone)) ∘
          (fun r => if r.phone = u.phone then { r with name := u.name, city := u.city } else r)) =
        fun r : UserRow => decide (r.phone = u.phone) := by
      funext r
      by_cases hr : r.phone = u.phone <;> simp [hr]
    rw [hcomp]
    refine le_antisymm (countP_phone_le_one u.phone users h) ?_
    rcases List.any_eq_true.mp hany with ⟨r, hr, hpr⟩
    exact Nat.succ_le_of_lt (List.countP_pos_iff.mpr ⟨r, hr, hpr⟩)
  · rw [if_neg hany, List.countP_append]
    have hzero : users.countP (fun r => decide (r.phone = u.phone)) = 0 := by
      rw [List.countP_eq_zero]
      intro r hr
      exact fun hpr => hany (List.any_eq_true.mpr ⟨r, hr, hpr⟩)
    simp [hzero]

lemma upsertUser_value (u : UserRow) (users : List UserRow) :
    ∀ r ∈ upsertUser u users, r.phone = u.phone → r.name = u.name ∧ r.city = u.city := by
  unfold upsertUser
  by_cases hany : users.any (fun r => decide (r.phone = u.phone))
  · rw [if_pos hany]
    intro r hr hpr
    rcases List.mem_map.mp hr with ⟨r0, _, rfl⟩
    by_cases h0 : r0.phone = u.phone
    · simp [h0]
    · simp only [if_neg h0] at hpr
      exact absurd hpr h0
  · rw [if_neg hany]
    intro r hr hpr
    rcases List.mem_append.mp hr with hmem | hmem
    · exact absurd (List.any_eq_true.mpr ⟨r, hmem, by simpa using hpr⟩) hany
    · rcases List.mem_singleton.mp hmem with rfl
      exact ⟨rfl, rfl⟩

lemma upsertUser_uniquePhones (u : UserRow) (users : List UserRow) (h : uniquePhones users) :
    uniquePhones (upsertUser u users) := by
  unfold upsertUser uniquePhones at *
  by_cases hany : users.any (fun r => decide (r.phone = u.phone))
  · rw [if_pos hany, List.map_map]
    have hcomp :
        (UserRow.phone ∘
          (fun r => if r.phone = u.phone then { r with name := u.name, city := u.city } else r)) =
        UserRow.phone := by
      funext r
      by_cases hr : r.phone = u.phone <;> simp [hr]
    rw [hcomp]
    exact h
  · rw [if_neg hany, List.map_append]
    rw [List.nodup_append]
    refine ⟨h, by simp, ?_⟩
    intro x hx hx1
    rcases List.mem_map.mp hx with ⟨r, hr, rfl⟩
    have hxu : r.phone = u.phone := by simpa using hx1
    exact absurd (List.any_eq_true.mpr ⟨r, hr, by simp [hxu]⟩) hany

/-! ### Lemmas about the items bulk insert -/

lemma itemRows_length (o n : Nat) (its : List Item) :
    (itemRows o n its).length = its.length := by
  induction its generalizing n with
  | nil => rfl
  | cons it rest ih => simp [itemRows, ih]

lemma itemRows_get (o : Nat) :
    ∀ (its : List Item) (n i : Nat) (h : i < (itemRows o n its).length) (h2 : i < its.length),
      (itemRows o n its).get ⟨i, h⟩ =
        ⟨n + i, o, (its.get ⟨i, h2⟩).name, (its.get ⟨i, h2⟩).price, 1⟩
  | [], n, i, h, h2 => by simp [itemRows] at h
  | it :: rest, n, 0, h, h2 => by simp [itemRows]
  | it :: rest, n, i + 1, h, h2 => by
    have hr : i < (itemRows o (n + 1) rest).length := by
      simpa [itemRows] using h
    have hr2 : i < rest.length := by simpa using h2
    have := itemRows_get o rest (n + 1) i hr hr2
    simpa [itemRows, Nat.add_assoc, Nat.add_comm 1 i] using this

/-! ### Claims -/

/-- C3: a request whose `customer` is absent, whose `items` is absent, or whose
`items` list is empty is answered `400 {message: "Missing order details"}`, the
store is left untouched, and no connection event happens at all. -/
theorem placeOrder_validation_rejects (env : Env) (req : OrderReq) (db : DB)
    (h : req.customer = none ∨ req.items = none ∨ req.items = some []) :
    placeOrder env req db = ⟨⟨400, Body.message "Missing order details"⟩, db, []⟩ := by
  rcases req with ⟨c, its, t, pm⟩
  rcases h with h | h | h
  · subst h; cases its <;> rfl
  · subst h; cases c <;> rfl
  · subst h; cases c <;> rfl

/-- Witness for C3: the empty-items request is rejected without database work. -/
theorem placeOrder_validation_rejects_witness :
    placeOrder Env.ok ⟨some ⟨some "555", some "A", some "X"⟩, some [], some "9.99", some "COD"⟩
      dbEmpty = ⟨⟨400, Body.message "Missing order details"⟩, dbEmpty, []⟩ :=
  placeOrder_validation_rejects Env.ok _ dbEmpty (Or.inr (Or.inr rfl))

/-- C8: the products route returns the whole product table ordered by id
descending — no filtering (the result is a permutation of the table) and no
pagination — and a data-store error is answered by a single
`500 {error: message}` with no partial list. -/
theorem getProducts_spec (db : DB) :
    getProducts none db = ⟨200, Body.productList (productsByIdDesc db)⟩ ∧
    List.Sorted idDesc (productsByIdDesc db) ∧
    (productsByIdDesc db).Perm db.products ∧
    ∀ e, getProducts (some e) db = ⟨500, Body.error e⟩ :=
  ⟨rfl, List.sorted_insertionSort idDesc db.products,
    List.perm_insertionSort idDesc db.products, fun _ => rfl⟩

/-- C7: the user route answers `404 {message: "User not found"}` exactly when no
user row matches the phone; when one does, it answers `200` with the first
matching row and that customer's orders sorted by creation time descending (a
permutation of the matching order rows); a data-store error is a distinct
`500 {error: message}`. -/
theorem getUserByPhone_spec (phone : String) (db : DB) :
    (db.users.filter (fun r => decide (r.phone = some phone)) = [] →
      getUserByPhone ReadEnv.ok phone db = ⟨404, Body.message "User not found"⟩) ∧
    (∀ u rest, db.users.filter (fun r => decide (r.phone = some phone)) = u :: rest →
      getUserByPhone ReadEnv.ok phone db =
        ⟨200, Body.userOrders u (ordersByCreatedDesc phone db)⟩) ∧
    List.Sorted createdDesc (ordersByCreatedDesc phone db) ∧
    (ordersByCreatedDesc phone db).Perm
      (db.orders.filter (fun o => decide (o.user_phone = some phone))) ∧
    (∀ e, getUserByPhone ⟨some e, none⟩ phone db = ⟨500, Body.error e⟩) := by
  refine ⟨?_, ?_, List.sorted_insertionSort createdDesc _,
    List.perm_insertionSort createdDesc _, fun _ => rfl⟩
  · intro h
    simp [getUserByPhone, ReadEnv.ok, h]
  · intro u rest h
    simp [getUserByPhone, ReadEnv.ok, h]

/-- Witness for C7: a miss answers 404; a hit answers 200 with the user row and
the sorted order list. -/
theorem getUserByPhone_spec_witness :
    getUserByPhone ReadEnv.ok "999" dbSample = ⟨404, Body.message "User not found"⟩ ∧
    getUserByPhone ReadEnv.ok "555" dbSample =
      ⟨200, Body.userOrders ⟨some "555", some "A", some "X"⟩
        (ordersByCreatedDesc "555" dbSample)⟩ :=
  ⟨(getUserByPhone_spec "999" dbSample).1 (by decide),
   (getUserByPhone_spec "555" dbSample).2.1 ⟨some "555", some "A", some "X"⟩ [] (by decide)⟩

/-- C2: on every code path of the orders route, connection releases balance
connection acquisitions, so the pool's available-connection count is restored
once the request completes. -/
theorem placeOrder_releasesConnection (env : Env) (req : OrderReq) (db : DB) :
    (placeOrder env req db).trace.count Ev.release =
      (placeOrder env req db).trace.count Ev.acquire ∧
    ((placeOrder env req db).trace.map poolDelta).sum = 0 := by
  rcases placeOrder_trace_cases env req db with h | h | h | h <;> rw [h] <;> exact ⟨by decide, by decide⟩

/-- C9: the orders route only ever appends to the `orders` and `order_items`
tables — every pre-existing order and order-item row survives unchanged. -/
theorem placeOrder_frame_appendOnly (env : Env) (req : OrderReq) (db : DB) :
    (∃ newOrders, (placeOrder env req db).db.orders = db.orders ++ newOrders) ∧
    (∃ newItems, (placeOrder env req db).db.order_items = db.order_items ++ newItems) := by
  rcases placeOrder_db_cases env req db with h | ⟨c, its, _, _, h⟩
  · rw [h]
    exact ⟨⟨[], (List.append_nil _).symm⟩, ⟨[], (List.append_nil _).symm⟩⟩
  · rw [h]
    exact ⟨⟨_, commitState_orders c its req.total req.paymentMethod db⟩,
      ⟨_, commitState_order_items c its req.total req.paymentMethod db⟩⟩

/-- C5: a valid order with `n` items appends exactly `n` rows to `order_items`
in one bulk write, row `i` carrying the generated order id, item `i`'s name,
item `i`'s price, and quantity 1. -/
theorem placeOrder_itemsBulkInsert (c : Customer) (its : List Item) (t pm : Option String)
    (db : DB) (h : its ≠ []) :
    (placeOrder Env.ok ⟨some c, some its, t, pm⟩ db).db.order_items =
      db.order_items ++ itemRows db.nextOrderId db.nextItemId its ∧
    (itemRows db.nextOrderId db.nextItemId its).length = its.length ∧
    ∀ i (hi : i < its.length),
      (itemRows db.nextOrderId db.nextItemId its).get
          ⟨i, by rw [itemRows_length]; exact hi⟩ =
        ⟨db.nextItemId + i, db.nextOrderId, (its.get ⟨i, hi⟩).name, (its.get ⟨i, hi⟩).price, 1⟩ := by
  refine ⟨?_, itemRows_length _ _ _, ?_⟩
  · rw [placeOrder_ok c its t pm db h]
    exact commitState_order_items c its t pm db
  · intro i hi
    exact itemRows_get db.nextOrderId its db.nextItemId i _ hi

/-- Witness for C5: the one-item example request appends exactly its one row. -/
theorem placeOrder_itemsBulkInsert_witness :
    (placeOrder Env.ok reqEx dbEmpty).db.order_items =
      dbEmpty.order_items ++ itemRows 1 1 [⟨some "Widget", some "9.99"⟩] ∧
    (itemRows 1 1 [⟨some "Widget", some "9.99"⟩]).length = 1 ∧
    (itemRows 1 1 [⟨some "Widget", some "9.99"⟩]).get ⟨0, by decide⟩ =
      ⟨1, 1, some "Widget", some "9.99", 1⟩ := by
  have h := placeOrder_itemsBulkInsert ⟨some "555", some "A", some "X"⟩
    [⟨some "Widget", some "9.99"⟩] (some "9.99") (some "COD") dbEmpty (by decide)
  exact ⟨h.1, h.2.1, h.2.2 0 (by decide)⟩

/-- C6: a successful order inserts one `orders` row carrying the customer's
phone, the request total, status `"Processing"`, the payment method, and the
shipping address copied from the customer payload, and answers
`200 {message: "Order placed successfully!", orderId}` with the generated id. -/
theorem placeOrder_orderInsert_response (c : Customer) (its : List Item) (t pm : Option String)
    (db : DB) (h : its ≠ []) :
    (placeOrder Env.ok ⟨some c, some its, t, pm⟩ db).resp =
      ⟨200, Body.orderSuccess "Order placed successfully!" db.nextOrderId⟩ ∧
    (placeOrder Env.ok ⟨some c, some its, t, pm⟩ db).db.orders =
      db.orders ++ [⟨db.nextOrderId, c.phone, t, some "Processing", pm, c.address, db.nextTime⟩] := by
  rw [placeOrder_ok c its t pm db h]
  exact ⟨rfl, commitState_orders c its t pm db⟩

/-- Witness for C6: the spec's end-to-end example request succeeds with the
generated id and the snapshot order row. -/
theorem placeOrder_orderInsert_response_witness :
    (placeOrder Env.ok reqEx dbEmpty).resp =
      ⟨200, Body.orderSuccess "Order placed successfully!" 1⟩ ∧
    (placeOrder Env.ok reqEx dbEmpty).db.orders =
      dbEmpty.orders ++
        [⟨1, some "555", some "9.99", some "Processing", some "COD", some "X", 0⟩] :=
  placeOrder_orderInsert_response ⟨some "555", some "A", some "X"⟩
    [⟨some "Widget", some "9.99"⟩] (some "9.99") (some "COD") dbEmpty (by decide)

/-- C10: validation checks only that `customer` is present and `items` is
present and non-empty; with those, the writes are attempted and succeed even
when `total`, `paymentMethod`, and every customer subfield are absent — the
missing values pass through to the upsert and the order insert as nulls. -/
theorem placeOrder_minimalValidation (c : Customer) (its : List Item) (t pm : Option String)
    (db : DB) (h : its ≠ []) :
    (placeOrder Env.ok ⟨some c, some its, t, pm⟩ db).resp.status = 200 ∧
    (placeOrder Env.ok ⟨some c, some its, t, pm⟩ db).db.users =
      upsertUser ⟨c.phone, c.name, c.address⟩ db.users ∧
    (placeOrder Env.ok ⟨some c, some its, t, pm⟩ db).db.orders =
      db.orders ++ [⟨db.nextOrderId, c.phone, t, some "Processing", pm, c.address, db.nextTime⟩] ∧
    (placeOrder Env.ok ⟨some c, some its, t, pm⟩ db).trace ≠ [] := by
  rw [placeOrder_ok c its t pm db h]
  exact ⟨rfl, commitState_users c its t pm db, commitState_orders c its t pm db, by simp⟩

/-- Witness for C10: a request whose customer subfields, total, and payment
method are all absent is still written, with nulls throughout. -/
theorem placeOrder_minimalValidation_witness :
    (placeOrder Env.ok ⟨some ⟨none, none, none⟩, some [⟨none, none⟩], none, none⟩
      dbEmpty).resp.status = 200 ∧
    (placeOrder Env.ok ⟨some ⟨none, none, none⟩, some [⟨none, none⟩], none, none⟩
      dbEmpty).db.users = upsertUser ⟨none, none, none⟩ dbEmpty.users ∧
    (placeOrder Env.ok ⟨some ⟨none, none, none⟩, some [⟨none, none⟩], none, none⟩
      dbEmpty).db.orders =
      dbEmpty.orders ++ [⟨1, none, none, some "Processing", none, none, 0⟩] ∧
    (placeOrder Env.ok ⟨some ⟨none, none, none⟩, some [⟨none, none⟩], none, none⟩
      dbEmpty).trace ≠ [] :=
  placeOrder_minimalValidation ⟨none, none, none⟩ [⟨none, none⟩] none none dbEmpty (by decide)

/-- C4: starting from a store whose phones are unique, two orders from the same
phone leave exactly one user row for that phone, carrying the second order's
name and address, and phone uniqueness is preserved — the upsert is a
last-write-wins update, never a duplicate insert. -/
theorem placeOrder_customerUpsert_lastWriteWins (p : String) (c1 c2 : Customer)
    (its1 its2 : List Item) (t1 t2 pm1 pm2 : Option String) (db : DB)
    (h1 : its1 ≠ []) (h2 : its2 ≠ []) (hp2 : c2.phone = some p)
    (hu : uniquePhones db.users) :
    (placeOrder Env.ok ⟨some c2, some its2, t2, pm2⟩
        (placeOrder Env.ok ⟨some c1, some its1, t1, pm1⟩ db).db).db.users.countP
      (fun r => decide (r.phone = some p)) = 1 ∧
    (∀ r ∈ (placeOrder Env.ok ⟨some c2, some its2, t2, pm2⟩
        (placeOrder Env.ok ⟨some c1, some its1, t1, pm1⟩ db).db).db.users,
      r.phone = some p → r.name = c2.name ∧ r.city = c2.address) ∧
    uniquePhones (placeOrder Env.ok ⟨some c2, some its2, t2, pm2⟩
        (placeOrder Env.ok ⟨some c1, some its1, t1, pm1⟩ db).db).db.users := by
  obtain ⟨cp, cn, ca⟩ := c2
  have hcp : cp = some p := hp2
  subst hcp
  have e1 : (placeOrder Env.ok ⟨some c1, some its1, t1, pm1⟩ db).db.users =
      upsertUser ⟨c1.phone, c1.name, c1.address⟩ db.users := by
    rw [placeOrder_ok c1 its1 t1 pm1 db h1]
    exact commitState_users c1 its1 t1 pm1 db
  have e2 : (placeOrder Env.ok ⟨some (⟨some p, cn, ca⟩ : Customer), some its2, t2, pm2⟩
      (placeOrder Env.ok ⟨some c1, some its1, t1, pm1⟩ db).db).db.users =
      upsertUser ⟨some p, cn, ca⟩
        (upsertUser ⟨c1.phone, c1.name, c1.address⟩ db.users) := by
    rw [placeOrder_ok (⟨some p, cn, ca⟩ : Customer) its2 t2 pm2 _ h2]
    rw [commitState_users (⟨some p, cn, ca⟩ : Customer) its2 t2 pm2 _, e1]
  have hu1 : uniquePhones (upsertUser ⟨c1.phone, c1.name, c1.address⟩ db.users) :=
    upsertUser_uniquePhones _ db.users hu
  rw [e2]
  refine ⟨?_, ?_, upsertUser_uniquePhones _ _ hu1⟩
  · exact upsertUser_countP ⟨some p, cn, ca⟩ _ hu1
  · intro r hr hpr
    exact upsertUser_value ⟨some p, cn, ca⟩ _ r hr hpr

/-- Witness for C4: two orders from phone 555 with different names and
addresses leave one row for 555 and keep phones unique. -/
theorem placeOrder_customerUpsert_lastWriteWins_witness :
    (placeOrder Env.ok ⟨some ⟨some "555", some "B", some "Y"⟩, some [⟨some "W", some "1"⟩],
        none, none⟩
      (placeOrder Env.ok ⟨some ⟨some "555", some "A", some "X"⟩, some [⟨some "W", some "1"⟩],
          none, none⟩ dbEmpty).db).db.users.countP
      (fun r => decide (r.phone = some "555")) = 1 ∧
    uniquePhones (placeOrder Env.ok ⟨some ⟨some "555", some "B", some "Y"⟩,
        some [⟨some "W", some "1"⟩], none, none⟩
      (placeOrder Env.ok ⟨some ⟨some "555", some "A", some "X"⟩, some [⟨some "W", some "1"⟩],
          none, none⟩ dbEmpty).db).db.users :=
  ⟨(placeOrder_customerUpsert_lastWriteWins "555" ⟨some "555", some "A", some "X"⟩
      ⟨some "555", some "B", some "Y"⟩ [⟨some "W", some "1"⟩] [⟨some "W", some "1"⟩]
      none none none none dbEmpty (by decide) (by decide) rfl
      (by simp [uniquePhones, dbEmpty])).1,
   (placeOrder_customerUpsert_lastWriteWins "555" ⟨some "555", some "A", some "X"⟩
      ⟨some "555", some "B", some "Y"⟩ [⟨some "W", some "1"⟩] [⟨some "W", some "1"⟩]
      none none none none dbEmpty (by decide) (by decide) rfl
      (by simp [uniquePhones, dbEmpty])).2.2⟩

/-- C1 counterexample: when `beginTransaction` fails, the handler answers 500
but releases the connection without ever calling rollback, so "the transaction
is rolled back before the connection is released" is false for that failing
step. -/
theorem placeOrder_beginFail_noRollback_cex :
    (placeOrder ⟨none, some "begin failed", none, none, none, none⟩ reqEx dbEmpty).resp.status
      = 500 ∧
    Ev.rollback ∉
      (placeOrder ⟨none, some "begin failed", none, none, none, none⟩ reqEx dbEmpty).trace ∧
    Ev.release ∈
      (placeOrder ⟨none, some "begin failed", none, none, none, none⟩ reqEx dbEmpty).trace := by
  decide

/-- C1 (amended): every failure answers a single `500 {error: message}` with
the store unchanged (no partial state).  A connection-acquisition failure holds
no connection (empty trace); a begin-transaction failure releases the
connection without a rollback (no transaction was started); a failure at any
of the three writes or at commit rolls back before releasing. -/
theorem placeOrder_failure_semantics (env : Env) (c : Customer) (its : List Item)
    (t pm : Option String) (db : DB) (h : its ≠ []) :
    (∀ e, env.connErr = some e →
      placeOrder env ⟨some c, some its, t, pm⟩ db = ⟨⟨500, Body.error e⟩, db, []⟩) ∧
    (∀ e, env.connErr = none → env.beginErr = some e →
      placeOrder env ⟨some c, some its, t, pm⟩ db =
        ⟨⟨500, Body.error e⟩, db, [Ev.acquire, Ev.release]⟩) ∧
    (∀ e, env.connErr = none → env.beginErr = none → env.firstWriteErr = some e →
      placeOrder env ⟨some c, some its, t, pm⟩ db =
        ⟨⟨500, Body.error e⟩, db, [Ev.acquire, Ev.beginTx, Ev.rollback, Ev.release]⟩) := by
  rw [placeOrder_valid env c its t pm db h]
  rcases env with ⟨ce, be, ue, oe, ie, me⟩
  refine ⟨?_, ?_, ?_⟩
  · intro e he
    simp only at he
    subst he
    rfl
  · intro e hce hbe
    simp only at hce hbe
    subst hce
    subst hbe
    rfl
  · intro e hce hbe hw
    simp only at hce hbe
    subst hce
    subst hbe
    simp only [Env.firstWriteErr, Option.orElse] at hw
    cases ue with
    | some x => simp only [Option.some.injEq] at hw; subst hw; rfl
    | none =>
      cases oe with
      | some x => simp only [Option.some.injEq] at hw; subst hw; rfl
      | none =>
        cases ie with
        | some x => simp only [Option.some.injEq] at hw; subst hw; rfl
        | none =>
          cases me with
          | some x => simp only [Option.some.injEq] at hw; subst hw; rfl
          | none => exact absurd hw (by simp)

/-- Witness for C1 (amended): one concrete run per failure class — acquisition
failure, begin failure, and a write failure. -/
theorem placeOrder_failure_semantics_witness :
    placeOrder ⟨some "no conn", none, none, none, none, none⟩ reqEx dbEmpty =
      ⟨⟨500, Body.error "no conn"⟩, dbEmpty, []⟩ ∧
    placeOrder ⟨none, some "no tx", none, none, none, none⟩ reqEx dbEmpty =
      ⟨⟨500, Body.error "no tx"⟩, dbEmpty, [Ev.acquire, Ev.release]⟩ ∧
    placeOrder ⟨none, none, none, some "order failed", none, none⟩ reqEx dbEmpty =
      ⟨⟨500, Body.error "order failed"⟩, dbEmpty,
        [Ev.acquire, Ev.beginTx, Ev.rollback, Ev.release]⟩ :=
  ⟨(placeOrder_failure_semantics ⟨some "no conn", none, none, none, none, none⟩
      ⟨some "555", some "A", some "X"⟩ [⟨some "Widget", some "9.99"⟩] (some "9.99") (some "COD")
      dbEmpty (by decide)).1 "no conn" rfl,
   (placeOrder_failure_semantics ⟨none, some "no tx", none, none, none, none⟩
      ⟨some "555", some "A", some "X"⟩ [⟨some "Widget", some "9.99"⟩] (some "9.99") (some "COD")
      dbEmpty (by decide)).2.1 "no tx" rfl rfl,
   (placeOrder_failure_semantics ⟨none, none, none, some "order failed", none, none⟩
      ⟨some "555", some "A", some "X"⟩ [⟨some "Widget", some "9.99"⟩] (some "9.99") (some "COD")
      dbEmpty (by decide)).2.2 "order failed" rfl rfl rfl⟩

end AutoGlow
